import Mathlib

/-!
Verification of the aggregation-and-pipeline engine of the finance news
briefing repository, as a shallow embedding in Lean 4.

The embedding follows the Python sources:
* `src/storage/aggregator.py` — snapshot aggregation (`aggregate_source_trends`),
* `src/summary/client.py` — summary generation with retry/backoff,
* `src/summary/generator.py` — the daily pipeline with progress tracking,
* `src/summary/reader.py` — content retrieval strategies and batching.

Machine floats in the source are modelled as exact rationals; Python's
`int(...)` on a float is truncation toward zero, and Python's `round(x, 0)`
rounds half to even.  Python dicts preserve insertion order, so the
`topic_stats` dict is modelled as an association list that appends new keys
at the end.  Python's `sorted` is a stable sort, modelled by `List.mergeSort`.
-/

/-- One observed news item.  Modelled from the spec: the `Trend` dataclass
lives in `fetcher/models.py`, which is not part of the provided sources; the
fields are those of the spec's data model, exactly the ones used by
`aggregate_source_trends` (`id`, `title`, `url`, optional `description`,
optional `publish_time`, optional integer `score`). -/
structure Trend where
  id : String
  title : String
  url : String
  description : Option String
  publish_time : Option String
  score : Option Int
deriving DecidableEq, Repr

/-- Python truthiness of an optional string: `None` and `""` are falsy. -/
def optTruthy : Option String → Bool
  | none => false
  | some s => s ≠ ""

/-- The per-id accumulator built by `aggregate_source_trends`
(`src/storage/aggregator.py`, lines 79-97): the dict value
`{id, title, url, description, publish_time, count, total_rank, scores}`. -/
structure TopicStats where
  id : String
  title : String
  url : String
  description : Option String
  publish_time : Option String
  count : Nat
  total_rank : Nat
  scores : List Int
deriving DecidableEq, Repr

/-- The initial accumulator entry created when `topic_id not in topic_stats`
(`aggregator.py` lines 80-89): counters start at zero, the snapshot fields
are taken from the first observation. -/
def initStats (t : Trend) : TopicStats :=
  { id := t.id
    title := t.title
    url := t.url
    description := t.description
    publish_time := t.publish_time
    count := 0
    total_rank := 0
    scores := [] }

/-- One observation applied to an accumulator entry (`aggregator.py` lines
90-97): overwrite `description` when the observed one is truthy, increment
`count`, add the 1-based `rank` to `total_rank`, and append the score when
present.  `title`, `url` and `publish_time` are not touched here. -/
def applyObs (s : TopicStats) (rank : Nat) (t : Trend) : TopicStats :=
  let s := if optTruthy t.description then { s with description := t.description } else s
  let s := { s with count := s.count + 1, total_rank := s.total_rank + rank }
  match t.score with
  | some v => { s with scores := s.scores ++ [v] }
  | none => s

/-- Update the ordered association list modelling the `topic_stats` dict:
modify the entry with the trend's id in place, or append a fresh entry at
the end (Python dicts preserve insertion order). -/
def upsertStats (stats : List TopicStats) (rank : Nat) (t : Trend) : List TopicStats :=
  match stats with
  | [] => [applyObs (initStats t) rank t]
  | s :: rest =>
      if s.id = t.id then applyObs s rank t :: rest
      else s :: upsertStats rest rank t

/-- Process one snapshot: `for rank, trend in enumerate(items, 1)`
(`aggregator.py` line 77). -/
def processSnapshot (stats : List TopicStats) (items : List Trend) : List TopicStats :=
  go stats items 1
where
  go (stats : List TopicStats) : List Trend → Nat → List TopicStats
    | [], _ => stats
    | t :: ts, r => go (upsertStats stats r t) ts (r + 1)

/-- The full accumulation loop over all snapshots (`aggregator.py` lines
76-97). -/
def buildTopicStats (itemsList : List (List Trend)) : List TopicStats :=
  itemsList.foldl processSnapshot []

/-- Python `int(...)` applied to an exact rational: truncation toward zero. -/
def truncQ (q : ℚ) : ℤ :=
  if 0 ≤ q then ⌊q⌋ else ⌈q⌉

/-- Python `round(x, 0)` applied to an exact rational: round to the nearest
integer, ties to the even integer. -/
def roundHalfEvenQ (q : ℚ) : ℤ :=
  if q - (⌊q⌋ : ℚ) < 1 / 2 then ⌊q⌋
  else if 1 / 2 < q - (⌊q⌋ : ℚ) then ⌊q⌋ + 1
  else if ⌊q⌋ % 2 = 0 then ⌊q⌋ else ⌊q⌋ + 1

/-- `SCORE_COUNT_WEIGHT = 0.6` (`aggregator.py` line 13). -/
def SCORE_COUNT_WEIGHT : ℚ := 6 / 10

/-- `SCORE_RANK_WEIGHT = 0.4` (`aggregator.py` line 14). -/
def SCORE_RANK_WEIGHT : ℚ := 4 / 10

/-- `MAX_ITEMS_PER_SOURCE = 50` (`aggregator.py` line 20). -/
def MAX_ITEMS_PER_SOURCE : Nat := 50

/-- The final score of one accumulator entry (`aggregator.py` lines 100-109):
`int(sum(scores) / len(scores))` when some source-native scores were seen,
otherwise `int(round(count * 0.6 + (1 / avg_rank) * 0.4, 0))` with
`avg_rank = total_rank / count`. -/
def finalScore (s : TopicStats) : ℤ :=
  if s.scores ≠ [] then
    truncQ ((s.scores.sum : ℚ) / (s.scores.length : ℚ))
  else
    let avg_rank : ℚ := (s.total_rank : ℚ) / (s.count : ℚ)
    roundHalfEvenQ ((s.count : ℚ) * SCORE_COUNT_WEIGHT + (1 / avg_rank) * SCORE_RANK_WEIGHT)

/-- The `Trend` rebuilt from one accumulator entry (`aggregator.py` lines
111-120). -/
def statsToTrend (s : TopicStats) : Trend :=
  { id := s.id
    title := s.title
    url := s.url
    description := s.description
    publish_time := s.publish_time
    score := some (finalScore s) }

/-- The unsorted result list of `aggregate_source_trends` (the `result`
list of `aggregator.py` lines 99-120), in dict-iteration = insertion
order. -/
def aggregateUnsorted (itemsList : List (List Trend)) : List Trend :=
  (buildTopicStats itemsList).map statsToTrend

/-- The comparison realising `sorted(result, key=lambda x: x.score or 0,
reverse=True)`: a stable descending sort on `score or 0`. -/
def scoreDescLE (a b : Trend) : Bool :=
  decide (b.score.getD 0 ≤ a.score.getD 0)

/-- The sorted, untruncated result (`aggregator.py` line 122 before the
`[:MAX_ITEMS_PER_SOURCE]` slice). -/
def aggregateSorted (itemsList : List (List Trend)) : List Trend :=
  (aggregateUnsorted itemsList).mergeSort scoreDescLE

/-- `aggregate_source_trends` (`src/storage/aggregator.py` lines 68-122). -/
def aggregate_source_trends (itemsList : List (List Trend)) : List Trend :=
  (aggregateSorted itemsList).take MAX_ITEMS_PER_SOURCE

example :
    buildTopicStats [[⟨"x", "T1", "u", none, none, none⟩],
      [⟨"y", "T2", "u2", none, none, none⟩, ⟨"x", "T1", "u", none, none, none⟩]] =
      [⟨"x", "T1", "u", none, none, 2, 3, []⟩, ⟨"y", "T2", "u2", none, none, 1, 1, []⟩] := by
  decide

/-- The integer form of Python `int(round(a / b, 0))` for an exact fraction
with numerator `a` and positive denominator `b` (note `/` and `%` below are
Euclidean division and remainder on `ℤ`, which agree with floor division for
a positive denominator). -/
def roundHalfEvenInt (a : ℤ) (b : ℕ) : ℤ :=
  if 2 * (a % (b : ℤ)) < (b : ℤ) then a / (b : ℤ)
  else if (b : ℤ) < 2 * (a % (b : ℤ)) then a / (b : ℤ) + 1
  else if (a / (b : ℤ)) % 2 = 0 then a / (b : ℤ) else a / (b : ℤ) + 1

/-- The integer form of `finalScore`, used to evaluate it on concrete
inputs: the mean of the scores truncated toward zero is `Int.tdiv`, and the
composite formula `count * 0.6 + (1 / (total_rank / count)) * 0.4` equals
the exact fraction `(3 * count * total_rank + 2 * count) / (5 * total_rank)`. -/
def finalScoreInt (s : TopicStats) : ℤ :=
  if s.scores ≠ [] then
    s.scores.sum.tdiv (s.scores.length : ℤ)
  else
    roundHalfEvenInt ((3 * s.count * s.total_rank + 2 * s.count : ℕ) : ℤ) (5 * s.total_rank)

theorem truncQ_div (a : ℤ) (b : ℕ) (hb : b ≠ 0) :
    truncQ ((a : ℚ) / (b : ℚ)) = a.tdiv (b : ℤ) := by
  have hb' : (0 : ℚ) < (b : ℚ) := by exact_mod_cast Nat.pos_of_ne_zero hb
  rcases le_or_lt 0 a with ha | ha
  · have hq : (0 : ℚ) ≤ (a : ℚ) / (b : ℚ) :=
      div_nonneg (by exact_mod_cast ha) hb'.le
    rw [truncQ, if_pos hq, Rat.floor_intCast_div_natCast,
      Int.tdiv_eq_ediv ha (by positivity)]
  · have hq : (a : ℚ) / (b : ℚ) < 0 :=
      div_neg_of_neg_of_pos (by exact_mod_cast ha) hb'
    rw [truncQ, if_neg (not_le.mpr hq)]
    have h1 : -((a : ℚ) / (b : ℚ)) = ((-a : ℤ) : ℚ) / (b : ℚ) := by
      push_cast
      ring
    have h2 : (⌈(a : ℚ) / (b : ℚ)⌉ : ℤ) = -⌊-((a : ℚ) / (b : ℚ))⌋ := by
      rw [Int.floor_neg, neg_neg]
    rw [h2, h1, Rat.floor_intCast_div_natCast]
    have h3 : a.tdiv (b : ℤ) = -((-a).tdiv (b : ℤ)) := by
      rw [Int.neg_tdiv, neg_neg]
    rw [h3, Int.tdiv_eq_ediv (by omega) (by positivity)]

theorem truncQ_eq_floor_of_nonneg {q : ℚ} (h : 0 ≤ q) : truncQ q = ⌊q⌋ := by
  rw [truncQ, if_pos h]

theorem roundHalfEvenQ_div (a : ℤ) (b : ℕ) (hb : b ≠ 0) :
    roundHalfEvenQ ((a : ℚ) / (b : ℚ)) = roundHalfEvenInt a b := by
  have hb' : (0 : ℚ) < (b : ℚ) := by exact_mod_cast Nat.pos_of_ne_zero hb
  have hbz : (0 : ℤ) < (b : ℤ) := by exact_mod_cast Nat.pos_of_ne_zero hb
  have hfloor : (⌊(a : ℚ) / (b : ℚ)⌋ : ℤ) = a / (b : ℤ) :=
    Rat.floor_intCast_div_natCast a b
  have hfrac : (a : ℚ) / (b : ℚ) - ((a / (b : ℤ) : ℤ) : ℚ) =
      ((a % (b : ℤ) : ℤ) : ℚ) / (b : ℚ) := by
    have := Int.emod_def a (b : ℤ)
    rw [this]
    push_cast
    field_simp
  have hcast : ((a % (b : ℤ) : ℤ) : ℚ) * 2 = (((a % (b : ℤ)) * 2 : ℤ) : ℚ) := by
    push_cast
    ring
  have hcast2 : (1 : ℚ) * (b : ℚ) = (((b : ℕ) : ℤ) : ℚ) := by
    push_cast
    ring
  have h1 : ((a : ℚ) / (b : ℚ) - ((a / (b : ℤ) : ℤ) : ℚ) < 1 / 2) ↔
      (2 * (a % (b : ℤ)) < (b : ℤ)) := by
    rw [hfrac, div_lt_div_iff₀ hb' (by norm_num : (0 : ℚ) < 2), hcast, hcast2,
      Int.cast_lt]
    omega
  have h2 : (1 / 2 < (a : ℚ) / (b : ℚ) - ((a / (b : ℤ) : ℤ) : ℚ)) ↔
      ((b : ℤ) < 2 * (a % (b : ℤ))) := by
    rw [hfrac, div_lt_div_iff₀ (by norm_num : (0 : ℚ) < 2) hb', hcast2, hcast,
      Int.cast_lt]
    omega
  rw [roundHalfEvenQ, roundHalfEvenInt, hfloor]
  simp only [h1, h2]

theorem finalScore_eval (s : TopicStats) (hc : s.count ≠ 0) (ht : s.total_rank ≠ 0) :
    finalScore s = finalScoreInt s := by
  rw [finalScore, finalScoreInt]
  by_cases h : s.scores = []
  · simp only [h, ne_eq, not_true_eq_false, if_false]
    have harg : (s.count : ℚ) * SCORE_COUNT_WEIGHT +
        (1 / ((s.total_rank : ℚ) / (s.count : ℚ))) * SCORE_RANK_WEIGHT =
        (((3 * s.count * s.total_rank + 2 * s.count : ℕ) : ℤ) : ℚ) /
          ((5 * s.total_rank : ℕ) : ℚ) := by
      rw [SCORE_COUNT_WEIGHT, SCORE_RANK_WEIGHT]
      have hc' : ((s.count : ℚ)) ≠ 0 := by exact_mod_cast hc
      have ht' : ((s.total_rank : ℚ)) ≠ 0 := by exact_mod_cast ht
      push_cast
      field_simp
      ring
    rw [harg, roundHalfEvenQ_div _ _ (by positivity)]
  · simp only [h, ne_eq, not_false_eq_true, if_true]
    have hlen : s.scores.length ≠ 0 := by
      simpa using h
    exact truncQ_div _ _ hlen

example : finalScoreInt ⟨"x", "T1", "u", none, none, 2, 3, []⟩ = 1 := by decide

example : finalScoreInt ⟨"x", "T1", "u", none, none, 1, 1, []⟩ = 1 := by decide

example : finalScoreInt ⟨"x", "T1", "u", none, none, 2, 3, [-1, -2]⟩ = -1 := by decide

theorem applyObs_count (s : TopicStats) (r : Nat) (t : Trend) :
    (applyObs s r t).count = s.count + 1 := by
  cases hd : optTruthy t.description <;> cases ht : t.score <;> simp [applyObs, hd, ht]

theorem applyObs_total_rank (s : TopicStats) (r : Nat) (t : Trend) :
    (applyObs s r t).total_rank = s.total_rank + r := by
  cases hd : optTruthy t.description <;> cases ht : t.score <;> simp [applyObs, hd, ht]

theorem applyObs_scores (s : TopicStats) (r : Nat) (t : Trend) :
    (applyObs s r t).scores = s.scores ++ t.score.toList := by
  cases hd : optTruthy t.description <;> cases ht : t.score <;> simp [applyObs, hd, ht]

theorem applyObs_title (s : TopicStats) (r : Nat) (t : Trend) :
    (applyObs s r t).title = s.title := by
  cases hd : optTruthy t.description <;> cases ht : t.score <;> simp [applyObs, hd, ht]

theorem applyObs_url (s : TopicStats) (r : Nat) (t : Trend) :
    (applyObs s r t).url = s.url := by
  cases hd : optTruthy t.description <;> cases ht : t.score <;> simp [applyObs, hd, ht]

theorem applyObs_publish_time (s : TopicStats) (r : Nat) (t : Trend) :
    (applyObs s r t).publish_time = s.publish_time := by
  cases hd : optTruthy t.description <;> cases ht : t.score <;> simp [applyObs, hd, ht]

theorem applyObs_description (s : TopicStats) (r : Nat) (t : Trend) :
    (applyObs s r t).description =
      if optTruthy t.description then t.description else s.description := by
  cases hd : optTruthy t.description <;> cases ht : t.score <;> simp [applyObs, hd, ht]

theorem applyObs_id (s : TopicStats) (r : Nat) (t : Trend) :
    (applyObs s r t).id = s.id := by
  cases hd : optTruthy t.description <;> cases ht : t.score <;> simp [applyObs, hd, ht]

/-- The invariant of accumulator entries: observed at least once, and each
observation contributed a 1-based (hence positive) rank. -/
def statsInv (s : TopicStats) : Prop := 1 ≤ s.count ∧ s.count ≤ s.total_rank

theorem applyObs_inv (t : Trend) {r : Nat} (hr : 1 ≤ r) {s : TopicStats}
    (hs : statsInv s ∨ s = initStats t) : statsInv (applyObs s r t) := by
  rcases hs with ⟨h1, h2⟩ | rfl
  · exact ⟨by rw [applyObs_count]; omega,
      by rw [applyObs_count, applyObs_total_rank]; omega⟩
  · exact ⟨by rw [applyObs_count]; simp [initStats],
      by rw [applyObs_count, applyObs_total_rank]; simp [initStats]; omega⟩

theorem upsertStats_inv {stats : List TopicStats} (h : ∀ s ∈ stats, statsInv s)
    {r : Nat} (hr : 1 ≤ r) (t : Trend) :
    ∀ s' ∈ upsertStats stats r t, statsInv s' := by
  induction stats with
  | nil =>
      intro s' hs'
      rw [upsertStats] at hs'
      simp only [List.mem_singleton] at hs'
      subst hs'
      exact applyObs_inv t hr (Or.inr rfl)
  | cons s rest ih =>
      intro s' hs'
      rw [upsertStats] at hs'
      by_cases hid : s.id = t.id
      · rw [if_pos hid] at hs'
        rcases List.mem_cons.mp hs' with rfl | hmem
        · exact applyObs_inv t hr (Or.inl (h s (List.mem_cons_self s rest)))
        · exact h s' (List.mem_cons_of_mem s hmem)
      · rw [if_neg hid] at hs'
        rcases List.mem_cons.mp hs' with rfl | hmem
        · exact h s' (List.mem_cons_self s' rest)
        · exact ih (fun x hx => h x (List.mem_cons_of_mem s hx)) s' hmem

theorem processSnapshot_go_inv {stats : List TopicStats} (h : ∀ s ∈ stats, statsInv s)
    (items : List Trend) {r : Nat} (hr : 1 ≤ r) :
    ∀ s' ∈ processSnapshot.go stats items r, statsInv s' := by
  induction items generalizing stats r with
  | nil =>
      intro s' hs'
      rw [processSnapshot.go] at hs'
      exact h s' hs'
  | cons t ts ih =>
      intro s' hs'
      rw [processSnapshot.go] at hs'
      exact ih (upsertStats_inv h hr t) (by omega) s' hs'

theorem buildTopicStats_inv (itemsList : List (List Trend)) :
    ∀ s ∈ buildTopicStats itemsList, statsInv s := by
  rw [buildTopicStats]
  suffices h : ∀ (stats : List TopicStats), (∀ s ∈ stats, statsInv s) →
      ∀ s ∈ itemsList.foldl processSnapshot stats, statsInv s by
    exact h [] (by simp)
  induction itemsList with
  | nil =>
      intro stats h s hs
      rw [List.foldl_nil] at hs
      exact h s hs
  | cons items rest ih =>
      intro stats h s hs
      rw [List.foldl_cons] at hs
      exact ih (processSnapshot stats items)
        (processSnapshot_go_inv h items (by omega)) s hs

/-- Every trend in the aggregated output is the image of an accumulator
entry of the same run. -/
theorem mem_aggregate_source_trends {itemsList : List (List Trend)} {tr : Trend}
    (h : tr ∈ aggregate_source_trends itemsList) :
    ∃ s ∈ buildTopicStats itemsList, tr = statsToTrend s := by
  rw [aggregate_source_trends] at h
  have h2 : tr ∈ aggregateSorted itemsList := List.take_subset _ _ h
  rw [aggregateSorted] at h2
  have h3 : tr ∈ aggregateUnsorted itemsList := List.mem_mergeSort.mp h2
  rw [aggregateUnsorted] at h3
  obtain ⟨s, hs, rfl⟩ := List.mem_map.mp h3
  exact ⟨s, hs, rfl⟩

theorem scoreDescLE_trans : ∀ a b c : Trend,
    scoreDescLE a b → scoreDescLE b c → scoreDescLE a c := by
  intro a b c hab hbc
  simp only [scoreDescLE, decide_eq_true_eq] at *
  omega

theorem scoreDescLE_total : ∀ a b : Trend, scoreDescLE a b || scoreDescLE b a := by
  intro a b
  simp only [scoreDescLE, Bool.or_eq_true, decide_eq_true_eq]
  omega

/-- Dict lookup in the ordered association list modelling `topic_stats`. -/
def lookupStats : List TopicStats → String → Option TopicStats
  | [], _ => none
  | s :: rest, i => if s.id = i then some s else lookupStats rest i

theorem lookupStats_upsertStats {stats : List TopicStats} {t : Trend} {s : TopicStats}
    (h : lookupStats stats t.id = some s) (r : Nat) :
    lookupStats (upsertStats stats r t) t.id = some (applyObs s r t) := by
  induction stats with
  | nil => simp [lookupStats] at h
  | cons s0 rest ih =>
      rw [lookupStats] at h
      by_cases hid : s0.id = t.id
      · rw [if_pos hid] at h
        injection h with h
        subst h
        rw [upsertStats, if_pos hid, lookupStats, if_pos (by rw [applyObs_id]; exact hid)]
      · rw [if_neg hid] at h
        rw [upsertStats, if_neg hid, lookupStats, if_neg hid]
        exact ih h

/-- Concrete aggregation input for claim C1: the same topic observed in two
snapshots with native scores `-1` and `-2`, so the exact mean is `-1.5`. -/
def exC1 : List (List Trend) :=
  [[⟨"x", "T", "u", none, none, some (-1)⟩],
   [⟨"x", "T", "u", none, none, some (-2)⟩]]

/-- The accumulator entry produced by `exC1`. -/
def sC1 : TopicStats := ⟨"x", "T", "u", none, none, 2, 2, [-1, -2]⟩

/-- The trend returned for `exC1`: the code computes
`int(sum([-1,-2]) / 2) = int(-1.5) = -1`. -/
def trC1 : Trend := ⟨"x", "T", "u", none, none, some (-1)⟩

theorem aggregate_exC1 : aggregate_source_trends exC1 = [trC1] := by
  have hb : buildTopicStats exC1 = [sC1] := by decide
  have hf : finalScore sC1 = -1 := by
    rw [finalScore_eval sC1 (by decide) (by decide)]
    decide
  have hst : statsToTrend sC1 = trC1 := by
    rw [statsToTrend, hf]
    decide
  rw [aggregate_source_trends, aggregateSorted, aggregateUnsorted, hb,
    List.map_singleton, hst, List.mergeSort_singleton]
  decide

/-- C1, counterexample: for the input `exC1` the aggregated topic has the
non-empty score list `[-1, -2]`; the code's final score is `-1` (truncation
toward zero of the mean `-1.5`), while the floor of the mean is `-2`.  So
the final score does not equal the floor of the mean of the scores. -/
theorem c1_floor_counterexample :
    (aggregate_source_trends exC1).map (fun t => t.score) = [some (-1)] ∧
    sC1.scores ≠ [] ∧
    ⌊(sC1.scores.sum : ℚ) / (sC1.scores.length : ℚ)⌋ = -2 ∧
    ((-1 : ℤ) ≠ -2) := by
  refine ⟨?_, by decide, ?_, by decide⟩
  · rw [aggregate_exC1]
    decide
  · have h1 : sC1.scores.sum = (-3 : ℤ) := by decide
    have h2 : sC1.scores.length = 2 := by decide
    rw [h1, h2, Rat.floor_intCast_div_natCast]
    decide

/-- C1, amended: for every topic produced by aggregation, the final score of
a topic with a non-empty list of source-native scores is the mean of those
scores truncated toward zero (Python `int(...)`), which agrees with the
floor of the mean whenever the sum of scores is nonnegative; a topic with no
native score gets `round(count * 0.6 + (1 / (total_rank / count)) * 0.4)`
with Python's round-half-to-even. -/
theorem c1_final_score_formula (itemsList : List (List Trend)) (tr : Trend)
    (h : tr ∈ aggregate_source_trends itemsList) :
    ∃ s ∈ buildTopicStats itemsList, tr = statsToTrend s ∧
      tr.score = some (finalScore s) ∧
      (s.scores ≠ [] →
        finalScore s = truncQ ((s.scores.sum : ℚ) / (s.scores.length : ℚ)) ∧
        (0 ≤ s.scores.sum →
          finalScore s = ⌊(s.scores.sum : ℚ) / (s.scores.length : ℚ)⌋)) ∧
      (s.scores = [] →
        finalScore s = roundHalfEvenQ ((s.count : ℚ) * (6 / 10) +
          (1 / ((s.total_rank : ℚ) / (s.count : ℚ))) * (4 / 10))) := by
  obtain ⟨s, hs, rfl⟩ := mem_aggregate_source_trends h
  refine ⟨s, hs, rfl, by rw [statsToTrend], ?_, ?_⟩
  · intro hne
    have he : finalScore s = truncQ ((s.scores.sum : ℚ) / (s.scores.length : ℚ)) := by
      rw [finalScore, if_pos hne]
    refine ⟨he, fun hnn => ?_⟩
    rw [he]
    refine truncQ_eq_floor_of_nonneg (div_nonneg ?_ ?_)
    · exact_mod_cast hnn
    · positivity
  · intro hemp
    rw [finalScore, if_neg (by simp [hemp]), SCORE_COUNT_WEIGHT, SCORE_RANK_WEIGHT]

/-- Witness for C1: the concrete run `exC1` has `trC1` in its output, with
accumulator entry `sC1` whose scores sum to `-3`. -/
theorem c1_final_score_formula_witness :
    (trC1 ∈ aggregate_source_trends exC1) ∧
    (∃ s ∈ buildTopicStats exC1, trC1 = statsToTrend s ∧
      trC1.score = some (finalScore s) ∧
      (s.scores ≠ [] →
        finalScore s = truncQ ((s.scores.sum : ℚ) / (s.scores.length : ℚ)) ∧
        (0 ≤ s.scores.sum →
          finalScore s = ⌊(s.scores.sum : ℚ) / (s.scores.length : ℚ)⌋)) ∧
      (s.scores = [] →
        finalScore s = roundHalfEvenQ ((s.count : ℚ) * (6 / 10) +
          (1 / ((s.total_rank : ℚ) / (s.count : ℚ))) * (4 / 10)))) := by
  have hmem : trC1 ∈ aggregate_source_trends exC1 := by
    rw [aggregate_exC1]
    exact List.mem_singleton.mpr rfl
  exact ⟨hmem, c1_final_score_formula exC1 trC1 hmem⟩

/-- Concrete aggregation input for claim C2: the same topic observed twice,
where the second observation carries a different non-null title, url,
description and publish time. -/
def exC2 : List (List Trend) :=
  [[⟨"x", "T1", "u1", some "d1", some "p1", none⟩],
   [⟨"x", "T2", "u2", some "d2", some "p2", none⟩]]

/-- C2, counterexample: after the second observation the accumulator keeps
the FIRST observation's `title`, `url` and `publish_time` (`T1`, `u1`,
`p1`); only `description` is overwritten (to `d2`).  The claim that
`publish_time`, `title` and `url` are overwritten with the current
observation's non-null values (`T2`, `u2`, `p2`) fails here. -/
theorem c2_overwrite_counterexample :
    buildTopicStats exC2 =
      [⟨"x", "T1", "u1", some "d2", some "p1", 2, 2, []⟩] ∧
    ("T1" ≠ "T2" ∧ "u1" ≠ "u2" ∧ some "p1" ≠ some "p2") := by
  exact ⟨by decide, by decide, by decide, by decide⟩

/-- C2, amended: during aggregation, an observation of an already-tracked id
increments `count`, adds the 1-based rank to `total_rank`, appends the score
when present, and overwrites only `description`, and only when the current
observation's description is non-empty — so a later non-empty description
always wins and a previously known non-empty description is never blanked;
`title`, `url` and `publish_time` keep the values of the first
observation. -/
theorem c2_accumulator_update (stats : List TopicStats) (r : Nat) (t : Trend)
    (s : TopicStats) (h : lookupStats stats t.id = some s) :
    lookupStats (upsertStats stats r t) t.id = some (applyObs s r t) ∧
    (applyObs s r t).count = s.count + 1 ∧
    (applyObs s r t).total_rank = s.total_rank + r ∧
    (applyObs s r t).scores = s.scores ++ t.score.toList ∧
    (applyObs s r t).description =
      (if optTruthy t.description then t.description else s.description) ∧
    (optTruthy t.description = true → (applyObs s r t).description = t.description) ∧
    (optTruthy s.description = true → optTruthy (applyObs s r t).description = true) ∧
    (applyObs s r t).title = s.title ∧
    (applyObs s r t).url = s.url ∧
    (applyObs s r t).publish_time = s.publish_time := by
  refine ⟨lookupStats_upsertStats h r, applyObs_count s r t, applyObs_total_rank s r t,
    applyObs_scores s r t, applyObs_description s r t, ?_, ?_,
    applyObs_title s r t, applyObs_url s r t, applyObs_publish_time s r t⟩
  · intro hd
    rw [applyObs_description, if_pos hd]
  · intro hd
    rw [applyObs_description]
    by_cases hcur : optTruthy t.description
    · rw [if_pos hcur]
      exact hcur
    · rw [if_neg hcur]
      exact hd

/-- Witness for C2: a concrete accumulator with one tracked topic, updated
by an observation of the same id at rank 2. -/
theorem c2_accumulator_update_witness :
    (lookupStats [(⟨"x", "T1", "u1", some "d1", some "p1", 1, 1, []⟩ : TopicStats)]
        (Trend.mk "x" "T2" "u2" (some "d2") (some "p2") (some 7)).id =
      some ⟨"x", "T1", "u1", some "d1", some "p1", 1, 1, []⟩) ∧
    (lookupStats (upsertStats [⟨"x", "T1", "u1", some "d1", some "p1", 1, 1, []⟩] 2
        ⟨"x", "T2", "u2", some "d2", some "p2", some 7⟩) "x" =
      some (applyObs ⟨"x", "T1", "u1", some "d1", some "p1", 1, 1, []⟩ 2
        ⟨"x", "T2", "u2", some "d2", some "p2", some 7⟩)) := by
  have h : lookupStats [(⟨"x", "T1", "u1", some "d1", some "p1", 1, 1, []⟩ : TopicStats)]
      (Trend.mk "x" "T2" "u2" (some "d2") (some "p2") (some 7)).id =
      some ⟨"x", "T1", "u1", some "d1", some "p1", 1, 1, []⟩ := by decide
  exact ⟨h, (c2_accumulator_update _ 2 _ _ h).1⟩

/-- C5: for every input, the aggregated list is sorted by final score in
descending order (on the sort key `score or 0`) and has at most 50
entries. -/
theorem c5_sorted_and_bounded (itemsList : List (List Trend)) :
    (aggregate_source_trends itemsList).length ≤ 50 ∧
    (aggregate_source_trends itemsList).Pairwise
      (fun a b => b.score.getD 0 ≤ a.score.getD 0) := by
  constructor
  · rw [aggregate_source_trends, List.length_take]
    exact min_le_left _ _
  · have hp : (List.mergeSort (aggregateUnsorted itemsList) scoreDescLE).Pairwise
        (fun a b => scoreDescLE a b) :=
      List.sorted_mergeSort scoreDescLE_trans scoreDescLE_total
        (aggregateUnsorted itemsList)
    have hp2 : (aggregateSorted itemsList).Pairwise
        (fun a b => b.score.getD 0 ≤ a.score.getD 0) := by
      rw [aggregateSorted]
      exact hp.imp (fun h => by simpa [scoreDescLE] using h)
    exact hp2.sublist (List.take_sublist _ _)

/-- C4: aggregation is a pure function of its input (running it twice gives
the same list), the output is the truncation of the stably sorted topic
list, and the stable sort preserves the first-seen (insertion) order of
topics with equal final score. -/
theorem c4_deterministic_stable (itemsList : List (List Trend)) :
    aggregate_source_trends itemsList = aggregate_source_trends itemsList ∧
    aggregate_source_trends itemsList =
      (aggregateSorted itemsList).take MAX_ITEMS_PER_SOURCE ∧
    (∀ a b : Trend, List.Sublist [a, b] (aggregateUnsorted itemsList) →
      a.score.getD 0 = b.score.getD 0 → List.Sublist [a, b] (aggregateSorted itemsList)) := by
  refine ⟨rfl, rfl, ?_⟩
  intro a b hsub heq
  rw [aggregateSorted]
  exact List.pair_sublist_mergeSort scoreDescLE_trans scoreDescLE_total
    (by simp [scoreDescLE, heq]) hsub

/-- The worked example of the spec (two snapshots; topic `x` first seen in
snapshot A at rank 1, then in snapshot B at rank 2; topic `y` only in
snapshot B at rank 1). -/
def specEx : List (List Trend) :=
  [[⟨"x", "T1", "u", none, none, none⟩],
   [⟨"y", "T2", "u2", none, none, none⟩, ⟨"x", "T1", "u", none, none, none⟩]]

/-- Topic `x` of the worked example: count 2, total rank 3, score 1. -/
def txEx : Trend := ⟨"x", "T1", "u", none, none, some 1⟩

/-- Topic `y` of the worked example: count 1, total rank 1, score 1. -/
def tyEx : Trend := ⟨"y", "T2", "u2", none, none, some 1⟩

theorem aggregateUnsorted_specEx : aggregateUnsorted specEx = [txEx, tyEx] := by
  have hb : buildTopicStats specEx =
      [⟨"x", "T1", "u", none, none, 2, 3, []⟩,
       ⟨"y", "T2", "u2", none, none, 1, 1, []⟩] := by decide
  have hx : statsToTrend ⟨"x", "T1", "u", none, none, 2, 3, []⟩ = txEx := by
    rw [statsToTrend, show finalScore ⟨"x", "T1", "u", none, none, 2, 3, []⟩ = 1 from by
      rw [finalScore_eval _ (by decide) (by decide)]; decide]
    decide
  have hy : statsToTrend ⟨"y", "T2", "u2", none, none, 1, 1, []⟩ = tyEx := by
    rw [statsToTrend, show finalScore ⟨"y", "T2", "u2", none, none, 1, 1, []⟩ = 1 from by
      rw [finalScore_eval _ (by decide) (by decide)]; decide]
    decide
  rw [aggregateUnsorted, hb]
  rw [List.map_cons, List.map_singleton, hx, hy]

example : aggregate_source_trends specEx = [txEx, tyEx] := by
  rw [aggregate_source_trends, aggregateSorted, aggregateUnsorted_specEx]
  simp [List.mergeSort, List.merge, scoreDescLE, txEx, tyEx, MAX_ITEMS_PER_SOURCE]

/-- Witness for C4: in the spec's worked example both topics score 1, and
the tie keeps first-seen order (`x` before `y`) through the stable sort. -/
theorem c4_deterministic_stable_witness :
    (List.Sublist [txEx, tyEx] (aggregateUnsorted specEx)) ∧
    (txEx.score.getD 0 = tyEx.score.getD 0) ∧
    (List.Sublist [txEx, tyEx] (aggregateSorted specEx)) := by
  have hsub : List.Sublist [txEx, tyEx] (aggregateUnsorted specEx) := by
    rw [aggregateUnsorted_specEx]
  have heq : txEx.score.getD 0 = tyEx.score.getD 0 := by decide
  exact ⟨hsub, heq, (c4_deterministic_stable specEx).2.2 txEx tyEx hsub heq⟩

/-- A pipeline news item (`news` dicts of `src/summary`): optional fields
model dict keys that may be absent (`summary = none` means the key is
absent; `summary = some ""` is a recorded empty summary). -/
structure NewsItem where
  title : Option String
  url : Option String
  sourceName : Option String
  rank : Option Nat
  markdownContent : Option String
  summary : Option String
deriving DecidableEq, Repr

/-- `MAX_RETRIES = 3` (`src/summary/client.py` line 21). -/
def MAX_RETRIES : Nat := 3

/-- `INITIAL_DELAY = 1.0` (`client.py` line 22). -/
def INITIAL_DELAY : ℚ := 1

/-- `MAX_DELAY = 60.0` (`client.py` line 23). -/
def MAX_DELAY : ℚ := 60

/-- `BACKOFF_MULTIPLIER = 2.0` (`client.py` line 24). -/
def BACKOFF_MULTIPLIER : ℚ := 2

deriving instance DecidableEq for Except

/-- Outcome record of one `_invoke_llm_with_retry` call: the final result,
the backoff sleeps performed between attempts, and the number of attempts
made. -/
structure RetryOutcome where
  result : Except String String
  sleeps : List ℚ
  attemptsMade : Nat
deriving DecidableEq, Repr

/-- The loop body of `_invoke_llm_with_retry` (`client.py` lines 181-204):
`for attempt in range(MAX_RETRIES)`, with `attempts` giving the outcome of
the `_invoke_llm` call on each iteration; on failure at the last attempt the
error is re-raised, otherwise the loop sleeps `delay` and doubles it (capped
at `MAX_DELAY`).  The fuel argument equals the number of remaining
iterations and is `MAX_RETRIES - attempt`, so the `fuel = 0` fallback is
unreachable. -/
def retryLoop (attempts : Nat → Except String String) :
    Nat → Nat → ℚ → List ℚ → RetryOutcome
  | 0, _, _, sleeps => ⟨.error "", sleeps, MAX_RETRIES⟩
  | fuel + 1, attempt, delay, sleeps =>
      match attempts attempt with
      | .ok s => ⟨.ok s, sleeps, attempt + 1⟩
      | .error e =>
          if attempt = MAX_RETRIES - 1 then ⟨.error e, sleeps, attempt + 1⟩
          else
            retryLoop attempts fuel (attempt + 1)
              (min (delay * BACKOFF_MULTIPLIER) MAX_DELAY) (sleeps ++ [delay])

/-- `_invoke_llm_with_retry` (`src/summary/client.py` lines 171-204). -/
def invokeLlmWithRetry (attempts : Nat → Except String String) : RetryOutcome :=
  retryLoop attempts MAX_RETRIES 0 INITIAL_DELAY []

/-- Per-item body shared by `generate_summaries` and
`generate_summaries_with_progress` (`client.py` lines 121-130): a successful
retry result becomes the item's summary; an exhausted retry records the
empty summary.  Returns the item together with the number of model-call
attempts made. -/
def summarizeOne (attempts : Nat → Except String String) (news : NewsItem) :
    NewsItem × Nat :=
  match invokeLlmWithRetry attempts with
  | ⟨.ok s, _, n⟩ => ({ news with summary := some s }, n)
  | ⟨.error _, _, n⟩ => ({ news with summary := some "" }, n)

/-- The item loop of `generate_summaries_with_progress` (`client.py` lines
116-139): `oracle i k` is the outcome of the `k`-th model-call attempt for
the item at 0-based position `i`; after each item, `_write_progress(date, i,
total)` is recorded (1-based `i`).  Returns the item results, the list of
progress writes `(current, total)`, and the total number of model calls. -/
def summariesLoop (oracle : Nat → Nat → Except String String) (total : Nat) :
    Nat → List NewsItem → List NewsItem × List (Nat × Nat) × Nat
  | _, [] => ([], [], 0)
  | i, news :: rest =>
      let r := summarizeOne (oracle i) news
      let rec' := summariesLoop oracle total (i + 1) rest
      (r.1 :: rec'.1, (i + 1, total) :: rec'.2.1, r.2 + rec'.2.2)

/-- `generate_summaries_with_progress` (`src/summary/client.py` lines
96-141): when `cfg.llm_api_key` is not set the input list is returned
unchanged, with no progress writes and no model calls. -/
def generateSummariesWithProgress (apiKeySet : Bool)
    (oracle : Nat → Nat → Except String String) (newsList : List NewsItem)
    (total : Nat) : List NewsItem × List (Nat × Nat) × Nat :=
  if apiKeySet then summariesLoop oracle total 0 newsList
  else (newsList, [], 0)

/-- `generate_summaries` (`src/summary/client.py` lines 54-93): the same
loop without progress writes. -/
def generateSummaries (apiKeySet : Bool)
    (oracle : Nat → Nat → Except String String) (newsList : List NewsItem) :
    List NewsItem × Nat :=
  if apiKeySet then
    ((summariesLoop oracle 0 0 newsList).1, (summariesLoop oracle 0 0 newsList).2.2)
  else (newsList, 0)

theorem retryLoop_attemptsMade_le (attempts : Nat → Except String String) :
    ∀ (fuel attempt : Nat) (delay : ℚ) (sleeps : List ℚ),
      attempt + fuel = MAX_RETRIES →
      (retryLoop attempts fuel attempt delay sleeps).attemptsMade ≤ MAX_RETRIES := by
  intro fuel
  induction fuel with
  | zero =>
      intro attempt delay sleeps h
      rw [retryLoop]
  | succ n ih =>
      intro attempt delay sleeps h
      rw [retryLoop]
      cases attempts attempt with
      | ok s =>
          show attempt + 1 ≤ MAX_RETRIES
          simp only [MAX_RETRIES] at h ⊢
          omega
      | error e =>
          dsimp only
          by_cases hl : attempt = MAX_RETRIES - 1
          · rw [if_pos hl]
            show attempt + 1 ≤ MAX_RETRIES
            simp only [MAX_RETRIES] at h ⊢
            omega
          · rw [if_neg hl]
            exact ih (attempt + 1) _ _ (by omega)

/-- At most `MAX_RETRIES = 3` model-call attempts are ever made. -/
theorem invokeLlmWithRetry_attemptsMade_le (attempts : Nat → Except String String) :
    (invokeLlmWithRetry attempts).attemptsMade ≤ 3 :=
  retryLoop_attemptsMade_le attempts MAX_RETRIES 0 INITIAL_DELAY [] rfl

/-- When all three attempts fail, the retry loop makes exactly 3 attempts,
sleeps 1 then 2 time-units between them (none after the last), and
propagates the last error. -/
theorem invokeLlmWithRetry_all_fail (attempts : Nat → Except String String)
    (e0 e1 e2 : String) (h0 : attempts 0 = .error e0) (h1 : attempts 1 = .error e1)
    (h2 : attempts 2 = .error e2) :
    invokeLlmWithRetry attempts = ⟨.error e2, [1, 2], 3⟩ := by
  have hm1 : min (INITIAL_DELAY * BACKOFF_MULTIPLIER) MAX_DELAY = 2 := by
    rw [INITIAL_DELAY, BACKOFF_MULTIPLIER, MAX_DELAY]
    norm_num
  have hm2 : min ((2 : ℚ) * BACKOFF_MULTIPLIER) MAX_DELAY = 4 := by
    rw [BACKOFF_MULTIPLIER, MAX_DELAY]
    norm_num
  rw [invokeLlmWithRetry]
  rw [show MAX_RETRIES = 3 from rfl]
  rw [retryLoop, h0]
  simp only [show (0 = MAX_RETRIES - 1) = False by simp [MAX_RETRIES], if_false, hm1]
  rw [retryLoop, h1]
  simp only [show (1 = MAX_RETRIES - 1) = False by simp [MAX_RETRIES], if_false, hm2]
  rw [retryLoop, h2]
  simp only [show (2 = MAX_RETRIES - 1) = True by simp [MAX_RETRIES], if_true]
  simp [INITIAL_DELAY]

theorem summariesLoop_length (oracle : Nat → Nat → Except String String) (total : Nat) :
    ∀ (l : List NewsItem) (k : Nat),
      (summariesLoop oracle total k l).1.length = l.length := by
  intro l
  induction l with
  | nil => intro k; rw [summariesLoop]
  | cons a l ih =>
      intro k
      rw [summariesLoop]
      simp only [List.length_cons]
      rw [ih (k + 1)]

theorem summariesLoop_getElem (oracle : Nat → Nat → Except String String) (total : Nat) :
    ∀ (l : List NewsItem) (k j : Nat),
      ((summariesLoop oracle total k l).1)[j]? =
        (l[j]?).map (fun it => (summarizeOne (oracle (k + j)) it).1) := by
  intro l
  induction l with
  | nil => intro k j; rw [summariesLoop]; simp
  | cons a l ih =>
      intro k j
      rw [summariesLoop]
      cases j with
      | zero => simp
      | succ m =>
          simp only [List.getElem?_cons_succ]
          rw [ih (k + 1) m, show k + 1 + m = k + (m + 1) from by omega]

theorem summariesLoop_writes (oracle : Nat → Nat → Except String String) (total : Nat) :
    ∀ (l : List NewsItem) (k : Nat),
      (summariesLoop oracle total k l).2.1 =
        (List.range l.length).map (fun i => (k + i + 1, total)) := by
  intro l
  induction l with
  | nil => intro k; rw [summariesLoop]; simp
  | cons a l ih =>
      intro k
      rw [summariesLoop]
      simp only [List.length_cons, List.range_succ_eq_map, List.map_cons, List.map_map]
      rw [ih (k + 1)]
      have hfun : ((fun i => (k + i + 1, total)) ∘ Nat.succ) =
          (fun i => (k + 1 + i + 1, total)) := by
        funext i
        simp only [Function.comp_apply, Nat.succ_eq_add_one, Prod.mk.injEq, and_true]
        omega
      rw [hfun]

/-- C3: the per-item summarization call makes at most 3 attempts; when all
three fail it makes exactly 3 attempts, sleeping 1 then 2 time-units (total
3) between them and none after the last, and propagates the last error; the
calling loop records an empty summary for that item and still produces a
result for every item of the batch. -/
theorem c3_retry_policy (attempts : Nat → Except String String)
    (e0 e1 e2 : String) (h0 : attempts 0 = .error e0)
    (h1 : attempts 1 = .error e1) (h2 : attempts 2 = .error e2)
    (oracle : Nat → Nat → Except String String) (newsList : List NewsItem)
    (j : Nat) (ho : ∀ k, k < 3 → ∃ e, oracle j k = .error e) (total : Nat) :
    (∀ a : Nat → Except String String, (invokeLlmWithRetry a).attemptsMade ≤ 3) ∧
    invokeLlmWithRetry attempts = ⟨.error e2, [1, 2], 3⟩ ∧
    (invokeLlmWithRetry attempts).sleeps.sum = 3 ∧
    (generateSummariesWithProgress true oracle newsList total).1.length =
      newsList.length ∧
    ((generateSummariesWithProgress true oracle newsList total).1)[j]? =
      (newsList[j]?).map (fun it => { it with summary := some "" }) := by
  have hall := invokeLlmWithRetry_all_fail attempts e0 e1 e2 h0 h1 h2
  obtain ⟨f0, hf0⟩ := ho 0 (by omega)
  obtain ⟨f1, hf1⟩ := ho 1 (by omega)
  obtain ⟨f2, hf2⟩ := ho 2 (by omega)
  have hitem : ∀ it : NewsItem, (summarizeOne (oracle j) it).1 =
      { it with summary := some "" } := by
    intro it
    rw [summarizeOne, invokeLlmWithRetry_all_fail (oracle j) f0 f1 f2 hf0 hf1 hf2]
  refine ⟨invokeLlmWithRetry_attemptsMade_le, hall, ?_, ?_, ?_⟩
  · rw [hall]
    norm_num
  · rw [generateSummariesWithProgress, if_pos rfl]
    exact summariesLoop_length oracle total newsList 0
  · rw [generateSummariesWithProgress, if_pos rfl,
      summariesLoop_getElem oracle total newsList 0 j]
    cases hnl : newsList[j]? with
    | none => simp
    | some it => simp [hitem it]

/-- Witness for C3: two items, every model call failing. -/
theorem c3_retry_policy_witness :
    ((fun _ : Nat => (Except.error "boom" : Except String String)) 0 =
      .error "boom") ∧
    (invokeLlmWithRetry (fun _ => .error "boom") =
      ⟨.error "boom", [1, 2], 3⟩) ∧
    ((generateSummariesWithProgress true (fun _ _ => .error "boom")
        [⟨some "a", some "u", some "s", some 1, none, none⟩,
         ⟨some "b", some "v", some "s", some 2, none, none⟩] 2).1)[0]? =
      some ⟨some "a", some "u", some "s", some 1, none, some ""⟩ := by
  have h := c3_retry_policy (fun _ => .error "boom") "boom" "boom" "boom"
    rfl rfl rfl (fun _ _ => .error "boom")
    [⟨some "a", some "u", some "s", some 1, none, none⟩,
     ⟨some "b", some "v", some "s", some 2, none, none⟩] 0
    (fun k _ => ⟨"boom", rfl⟩) 2
  refine ⟨rfl, h.2.1, ?_⟩
  rw [h.2.2.2.2]
  rfl

/-- C10: with no LLM API key configured, both entry points return the input
news list unchanged (so no `summary` key is added to any item), write no
progress, and make zero model calls. -/
theorem c10_no_api_key (oracle : Nat → Nat → Except String String)
    (newsList : List NewsItem) (total : Nat) :
    generateSummariesWithProgress false oracle newsList total = (newsList, [], 0) ∧
    generateSummaries false oracle newsList = (newsList, 0) :=
  ⟨rfl, rfl⟩

/-- The placeholder a failed retrieval task leaves in the batch result:
`{"markdown_content": None}` (`src/summary/reader.py` line 262), a dict with
no other keys. -/
def exceptionItem : NewsItem := ⟨none, none, none, none, none, none⟩

/-- The body of `fetch_with_limit` (`reader.py` lines 241-251) for one item:
without a truthy url the item gets `markdown_content = None` and no fetch
happens; otherwise the outcome of `fetch_content(url)` (content or a raised
error) is attached. -/
def fetchTask (outcome : Except String (Option String)) (item : NewsItem) :
    Except String NewsItem :=
  if optTruthy item.url = false then .ok { item with markdownContent := none }
  else outcome.map (fun md => { item with markdownContent := md })

/-- The result post-processing of `asyncio.gather(..., return_exceptions =
True)` (`reader.py` lines 255-264): an exception becomes the bare
placeholder dict, any other result is kept. -/
def gatherMap (r : Except String NewsItem) : NewsItem :=
  match r with
  | .ok it => it
  | .error _ => exceptionItem

/-- `fetch_contents_batch` (`src/summary/reader.py` lines 229-270), with the
network abstracted by `oracle i`: the outcome of the fetch for the item at
0-based position `i`. -/
def fetchContentsBatch (oracle : Nat → Except String (Option String))
    (newsList : List NewsItem) : List NewsItem :=
  (newsList.enum).map (fun p => gatherMap (fetchTask (oracle p.1) p.2))

theorem fetchContentsBatch_length (oracle : Nat → Except String (Option String))
    (newsList : List NewsItem) :
    (fetchContentsBatch oracle newsList).length = newsList.length := by
  rw [fetchContentsBatch, List.length_map, List.enum_length]

theorem fetchContentsBatch_getElem (oracle : Nat → Except String (Option String))
    (newsList : List NewsItem) (j : Nat) :
    (fetchContentsBatch oracle newsList)[j]? =
      (newsList[j]?).map (fun it => gatherMap (fetchTask (oracle j) it)) := by
  rw [fetchContentsBatch, List.getElem?_map, List.getElem?_enum]
  cases newsList[j]? <;> rfl

/-- `SEMAPHORE_LIMIT = 5`: `asyncio.Semaphore(5)` (`reader.py` line 239). -/
def SEMAPHORE_LIMIT : Nat := 5

/-- A scheduling event of the batch: a task acquires the semaphore and
begins its fetch (`start`), or completes and releases it (`finish`). -/
inductive FetchEvent where
  | start (i : Nat)
  | finish (i : Nat)
deriving DecidableEq, Repr

/-- Semaphore semantics of `async with semaphore`: a `start` is enabled only
while fewer than `SEMAPHORE_LIMIT` tasks hold the semaphore (excess tasks
stay queued), and a `finish` must belong to a running task.  `active` is the
list of task ids currently holding the semaphore. -/
def traceOk (active : List Nat) : List FetchEvent → Bool
  | [] => true
  | .start i :: rest =>
      decide (active.length < SEMAPHORE_LIMIT) && traceOk (i :: active) rest
  | .finish i :: rest =>
      decide (i ∈ active) && traceOk (active.erase i) rest

/-- Replay of a trace: the set of in-flight tasks after a list of events. -/
def runActive (active : List Nat) : List FetchEvent → List Nat
  | [] => active
  | .start i :: rest => runActive (i :: active) rest
  | .finish i :: rest => runActive (active.erase i) rest

theorem traceOk_active_le {tr : List FetchEvent} :
    ∀ {active : List Nat}, traceOk active tr = true →
      active.length ≤ SEMAPHORE_LIMIT →
      ∀ p s, tr = p ++ s → (runActive active p).length ≤ SEMAPHORE_LIMIT := by
  induction tr with
  | nil =>
      intro active _ hle p s hps
      have : p = [] := by
        cases p with
        | nil => rfl
        | cons a l => simp at hps
      subst this
      exact hle
  | cons e rest ih =>
      intro active hok hle p s hps
      cases p with
      | nil =>
          rw [runActive]
          exact hle
      | cons e' p' =>
          rw [List.cons_append] at hps
          injection hps with he hrest
          subst he
          cases e with
          | start i =>
              rw [traceOk, Bool.and_eq_true, decide_eq_true_eq] at hok
              rw [runActive]
              exact ih hok.2 (by simpa using hok.1) p' s hrest
          | finish i =>
              rw [traceOk, Bool.and_eq_true] at hok
              rw [runActive]
              exact ih hok.2
                (le_trans (List.length_erase_le i active) hle) p' s hrest

/-- C8: with the semaphore semantics of `asyncio.Semaphore(5)`, every
reachable point of a batch execution has at most 5 retrievals in flight, and
the result of the batch has one entry per input item, each depending only on
that item's own fetch outcome — a failing task yields the placeholder for
its own slot and leaves every sibling's result unchanged. -/
theorem c8_concurrency_cap_and_isolation (tr : List FetchEvent)
    (h : traceOk [] tr = true) (oracle : Nat → Except String (Option String))
    (newsList : List NewsItem) (j : Nat) :
    (∀ p s, tr = p ++ s → (runActive [] p).length ≤ 5) ∧
    (fetchContentsBatch oracle newsList).length = newsList.length ∧
    (fetchContentsBatch oracle newsList)[j]? =
      (newsList[j]?).map (fun it => gatherMap (fetchTask (oracle j) it)) :=
  ⟨traceOk_active_le h (by decide),
    fetchContentsBatch_length oracle newsList,
    fetchContentsBatch_getElem oracle newsList j⟩

/-- Witness for C8: a valid interleaving of three tasks (at most two ever in
flight), with the fetch for item 0 raising and item 1 succeeding. -/
theorem c8_concurrency_cap_and_isolation_witness :
    (traceOk [] [FetchEvent.start 0, .start 1, .finish 0, .start 2, .finish 2,
      .finish 1] = true) ∧
    (runActive [] [FetchEvent.start 0, .start 1]).length ≤ 5 ∧
    (fetchContentsBatch
        (fun i => if i = 0 then .error "boom" else .ok (some "body"))
        [⟨some "a", some "u", some "s", some 1, none, none⟩,
         ⟨some "b", some "v", some "s", some 2, none, none⟩])[0]? =
      some exceptionItem ∧
    (fetchContentsBatch
        (fun i => if i = 0 then .error "boom" else .ok (some "body"))
        [⟨some "a", some "u", some "s", some 1, none, none⟩,
         ⟨some "b", some "v", some "s", some 2, none, none⟩])[1]? =
      some ⟨some "b", some "v", some "s", some 2, some "body", none⟩ := by
  have htr : traceOk [] [FetchEvent.start 0, .start 1, .finish 0, .start 2,
      .finish 2, .finish 1] = true := by decide
  have h := c8_concurrency_cap_and_isolation _ htr
    (fun i => if i = 0 then .error "boom" else .ok (some "body"))
    [⟨some "a", some "u", some "s", some 1, none, none⟩,
     ⟨some "b", some "v", some "s", some 2, none, none⟩] 0
  refine ⟨htr, ?_, ?_, ?_⟩
  · exact h.1 [FetchEvent.start 0, .start 1] [.finish 0, .start 2, .finish 2,
      .finish 1] rfl
  · rw [h.2.2]
    decide
  · have h' := c8_concurrency_cap_and_isolation _ htr
      (fun i => if i = 0 then .error "boom" else .ok (some "body"))
      [⟨some "a", some "u", some "s", some 1, none, none⟩,
       ⟨some "b", some "v", some "s", some 2, none, none⟩] 1
    rw [h'.2.2]
    decide

/-- An operation on the progress file `{date}.progress.json`: a
`_write_progress(date, current, total)` or a `_clear_progress(date)`
(`src/summary/generator.py` lines 19-37). -/
inductive ProgressOp where
  | write (current total : Nat)
  | clear
deriving DecidableEq, Repr

/-- The result dict of `generate_daily_summary` as far as the claims are
concerned: the `success` flag and the optional `error` message. -/
structure RunResult where
  success : Bool
  error : Option String
deriving DecidableEq, Repr

/-- The error message of `generate_daily_summary` for an empty selection
(`generator.py` line 62). -/
def noNewsError : String := "No eligible news found"

/-- `generate_daily_summary` (`src/summary/generator.py` lines 40-166),
restricted to its result dict and its sequence of progress-file operations.
The selection (`select_top_news`) is passed in as `selected`; an empty
selection clears the progress file and returns `{"success": False, "error":
"No eligible news found"}`; otherwise contents are fetched in batch,
progress `(0, total)` is written, summaries are generated (each item
appending its own progress write), and the progress file is cleared.  File
writes, markdown rendering and text-to-speech do not touch the progress
file and are omitted. -/
def generateDailySummaryRun (apiKeySet : Bool)
    (fetchOracle : Nat → Except String (Option String))
    (llmOracle : Nat → Nat → Except String String)
    (selected : List NewsItem) : RunResult × List ProgressOp :=
  if selected.isEmpty then
    ({ success := false, error := some noNewsError }, [.clear])
  else
    let withContent := fetchContentsBatch fetchOracle selected
    let total := withContent.length
    let r := generateSummariesWithProgress apiKeySet llmOracle withContent total
    ({ success := true, error := none },
      [.write 0 total] ++ r.2.1.map (fun p => ProgressOp.write p.1 p.2) ++ [.clear])

/-- The payloads of the write operations of a trace, in order. -/
def writesOf : List ProgressOp → List (Nat × Nat)
  | [] => []
  | .write c t :: rest => (c, t) :: writesOf rest
  | .clear :: rest => writesOf rest

theorem writesOf_append (l₁ l₂ : List ProgressOp) :
    writesOf (l₁ ++ l₂) = writesOf l₁ ++ writesOf l₂ := by
  induction l₁ with
  | nil => simp [writesOf]
  | cons op rest ih =>
      cases op with
      | write c t => simp [writesOf, ih]
      | clear => simp [writesOf, ih]

theorem writesOf_map_write (l : List (Nat × Nat)) :
    writesOf (l.map (fun p => ProgressOp.write p.1 p.2)) = l := by
  induction l with
  | nil => simp [writesOf]
  | cons p rest ih => simp [writesOf, ih]

theorem generateDailySummaryRun_trace (fetchOracle : Nat → Except String (Option String))
    (llmOracle : Nat → Nat → Except String String) (selected : List NewsItem)
    (h : selected ≠ []) :
    (generateDailySummaryRun true fetchOracle llmOracle selected).2 =
      [ProgressOp.write 0 selected.length] ++
        (List.range selected.length).map
          (fun i => ProgressOp.write (i + 1) selected.length) ++
        [ProgressOp.clear] := by
  rw [generateDailySummaryRun, if_neg (by simpa [List.isEmpty_iff] using h)]
  dsimp only
  rw [generateSummariesWithProgress, if_pos rfl,
    summariesLoop_writes llmOracle _ _ 0, fetchContentsBatch_length]
  simp only [List.map_map, Function.comp, Nat.zero_add]
  rfl

theorem countP_range_eq_one (n : Nat) :
    (List.range (n + 1)).countP (fun i => decide (i = n)) = 1 := by
  rw [List.range_succ, List.countP_append]
  have h0 : (List.range n).countP (fun i => decide (i = n)) = 0 := by
    rw [List.countP_eq_zero]
    intro a ha
    simp only [decide_eq_true_eq]
    exact Nat.ne_of_lt (List.mem_range.mp ha)
  rw [h0]
  simp [List.countP_cons]

/-- C7: in a run with the API key set and a non-empty selection, the
progress trace is exactly one write of `(0, n)`, then one write per
completed item with `current` incremented by 1 each time and `total` fixed
at `n`, so `current` reaches `total` in exactly one write; the trace ends
with the deletion of the progress record. -/
theorem c7_progress_trace (fetchOracle : Nat → Except String (Option String))
    (llmOracle : Nat → Nat → Except String String) (selected : List NewsItem)
    (h : selected ≠ []) :
    (generateDailySummaryRun true fetchOracle llmOracle selected).2 =
      [ProgressOp.write 0 selected.length] ++
        (List.range selected.length).map
          (fun i => ProgressOp.write (i + 1) selected.length) ++
        [ProgressOp.clear] ∧
    writesOf (generateDailySummaryRun true fetchOracle llmOracle selected).2 =
      (List.range (selected.length + 1)).map (fun i => (i, selected.length)) ∧
    (writesOf
        (generateDailySummaryRun true fetchOracle llmOracle selected).2).countP
      (fun p => decide (p.1 = p.2)) = 1 ∧
    (generateDailySummaryRun true fetchOracle llmOracle selected).2.getLast? =
      some ProgressOp.clear := by
  have h1 := generateDailySummaryRun_trace fetchOracle llmOracle selected h
  have h2 : writesOf (generateDailySummaryRun true fetchOracle llmOracle selected).2 =
      (List.range (selected.length + 1)).map (fun i => (i, selected.length)) := by
    rw [h1, writesOf_append, writesOf_append]
    rw [show (List.range selected.length).map
        (fun i => ProgressOp.write (i + 1) selected.length) =
        ((List.range selected.length).map (fun i => (i + 1, selected.length))).map
          (fun p => ProgressOp.write p.1 p.2) from by rw [List.map_map]; rfl]
    rw [writesOf_map_write]
    rw [List.range_succ_eq_map, List.map_cons, List.map_map]
    simp [writesOf, Function.comp, Nat.succ_eq_add_one]
  refine ⟨h1, h2, ?_, ?_⟩
  · rw [h2, List.countP_map]
    have : ((fun p : Nat × Nat => decide (p.1 = p.2)) ∘
        fun i => (i, selected.length)) = (fun i => decide (i = selected.length)) := rfl
    rw [this]
    exact countP_range_eq_one selected.length
  · rw [h1, List.getLast?_concat]

/-- Witness for C7: a run over a single selected item; the trace is
`[write (0,1), write (1,1), clear]`. -/
theorem c7_progress_trace_witness :
    (([⟨some "a", some "u", some "s", some 1, none, none⟩] : List NewsItem) ≠ []) ∧
    (writesOf (generateDailySummaryRun true (fun _ => .ok (some "body"))
        (fun _ _ => .ok "sum")
        [⟨some "a", some "u", some "s", some 1, none, none⟩]).2).countP
      (fun p => decide (p.1 = p.2)) = 1 ∧
    (generateDailySummaryRun true (fun _ => .ok (some "body"))
        (fun _ _ => .ok "sum")
        [⟨some "a", some "u", some "s", some 1, none, none⟩]).2.getLast? =
      some ProgressOp.clear := by
  have hne : ([⟨some "a", some "u", some "s", some 1, none, none⟩] : List NewsItem) ≠ [] := by
    decide
  have h := c7_progress_trace (fun _ => .ok (some "body")) (fun _ _ => .ok "sum")
    [⟨some "a", some "u", some "s", some 1, none, none⟩] hne
  exact ⟨hne, h.2.2.1, h.2.2.2⟩

/-- C9, counterexample: with an empty selection `generate_daily_summary`
returns `{"success": False, "error": "No eligible news found"}` — it does
not raise, but it does report the run as failed, contradicting the claim
that an empty selection is not reported as a failure. -/
theorem c9_empty_selection_counterexample :
    (generateDailySummaryRun true (fun _ => .ok none) (fun _ _ => .ok "s")
      []).1.success = false ∧
    (generateDailySummaryRun true (fun _ => .ok none) (fun _ _ => .ok "s")
      []).1.error = some "No eligible news found" := by
  exact ⟨rfl, rfl⟩

/-- C9, amended: when selection yields no items the summarization caller
returns early without raising: it performs no retrieval or summarization,
clears the progress file, and returns a result with `success = False` and
the explicit error message `"No eligible news found"`. -/
theorem c9_empty_selection (apiKeySet : Bool)
    (fetchOracle : Nat → Except String (Option String))
    (llmOracle : Nat → Nat → Except String String) :
    generateDailySummaryRun apiKeySet fetchOracle llmOracle [] =
      ({ success := false, error := some noNewsError }, [ProgressOp.clear]) :=
  rfl

/-- Case-insensitive character equality (`re.IGNORECASE`). -/
def charCIEq (a b : Char) : Bool := a.toLower = b.toLower

/-- Case-insensitive prefix match: when `pat` is a prefix of `l` up to case,
return the remainder of `l`. -/
def matchCI : List Char → List Char → Option (List Char)
  | [], l => some l
  | _ :: _, [] => none
  | p :: ps, c :: cs => if charCIEq p c then matchCI ps cs else none

/-- Exact (case-sensitive) prefix match, for Python's `str.replace`. -/
def matchExact : List Char → List Char → Option (List Char)
  | [], l => some l
  | _ :: _, [] => none
  | p :: ps, c :: cs => if p = c then matchExact ps cs else none

/-- Scan for the first case-insensitive occurrence of `pat`; return the
suffix just after it (the regex engine's leftmost match). -/
def findCI (pat : List Char) : List Char → Option (List Char)
  | [] => matchCI pat []
  | c :: cs =>
      match matchCI pat (c :: cs) with
      | some r => some r
      | none => findCI pat cs

/-- `[^>]*>`: zero or more characters other than `>`, then `>`; returns the
suffix after the `>`. -/
def takeToGt : List Char → Option (List Char)
  | [] => none
  | c :: cs => if c = '>' then some cs else takeToGt cs

/-- `[^>]+>`: at least one character other than `>`, then `>`. -/
def takeToGt1 : List Char → Option (List Char)
  | [] => none
  | c :: cs => if c = '>' then none else takeToGt cs

/-- One `re.sub(r"<tag[^>]*>.*?</tag>", "", html, flags=re.DOTALL |
re.IGNORECASE)` pass (`reader.py` lines 31-40): scanning left to right,
an occurrence of the opening pattern followed by `[^>]*>` and a later
closing occurrence deletes the whole region; an opening with no closing
stays.  The fuel argument (the remaining scan length, initially the list
length) only makes the recursion structural: every recursive call consumes
at least one character, so fuel never runs out on the initial call. -/
def removeBlocksFuel (openPat closePat : List Char) : Nat → List Char → List Char
  | 0, l => l
  | _, [] => []
  | fuel + 1, c :: cs =>
      match matchCI openPat (c :: cs) with
      | some rest1 =>
          match takeToGt rest1 with
          | some rest2 =>
              match findCI closePat rest2 with
              | some rest3 => removeBlocksFuel openPat closePat fuel rest3
              | none => c :: removeBlocksFuel openPat closePat fuel cs
          | none => c :: removeBlocksFuel openPat closePat fuel cs
      | none => c :: removeBlocksFuel openPat closePat fuel cs

/-- `re.sub(r"<!--.*?-->", "", html, flags=re.DOTALL)` (`reader.py` line
34). -/
def removeCommentsFuel : Nat → List Char → List Char
  | 0, l => l
  | _, [] => []
  | fuel + 1, c :: cs =>
      match matchCI ("<!--".data) (c :: cs) with
      | some rest1 =>
          match findCI ("-->".data) rest1 with
          | some rest2 => removeCommentsFuel fuel rest2
          | none => c :: removeCommentsFuel fuel cs
      | none => c :: removeCommentsFuel fuel cs

/-- `re.sub(r"<[^>]+>", " ", html)` (`reader.py` line 43): every remaining
tag becomes a single space. -/
def stripTagsFuel : Nat → List Char → List Char
  | 0, l => l
  | _, [] => []
  | fuel + 1, c :: cs =>
      if c = '<' then
        match takeToGt1 cs with
        | some rest => ' ' :: stripTagsFuel fuel rest
        | none => c :: stripTagsFuel fuel cs
      else c :: stripTagsFuel fuel cs

/-- `re.sub(r"\s+", " ", html)` (`reader.py` line 44): collapse whitespace
runs to a single space. -/
def collapseWsGo : Bool → List Char → List Char
  | _, [] => []
  | prevWs, c :: cs =>
      if c.isWhitespace then
        if prevWs then collapseWsGo true cs
        else ' ' :: collapseWsGo true cs
      else c :: collapseWsGo false cs

/-- Python `str.replace(pat, rep)`: replace all non-overlapping occurrences,
left to right, without rescanning the replacement. -/
def replaceAllFuel (pat rep : List Char) : Nat → List Char → List Char
  | 0, l => l
  | _, [] => []
  | fuel + 1, c :: cs =>
      match matchExact pat (c :: cs) with
      | some rest => rep ++ replaceAllFuel pat rep fuel rest
      | none => c :: replaceAllFuel pat rep fuel cs

/-- Python `str.strip()`. -/
def trimChars (l : List Char) : List Char :=
  ((l.dropWhile Char.isWhitespace).reverse.dropWhile Char.isWhitespace).reverse

/-- `clean_html_content` (`src/summary/reader.py` lines 25-54): drop
script/style/noscript blocks, comments, header/footer/nav/aside blocks,
replace remaining tags by spaces, collapse whitespace, decode the six
basic entities, and strip. -/
def cleanHtmlContent (html : String) : String :=
  if html = "" then ""
  else
    let cs := html.data
    let cs := removeBlocksFuel ("<script".data) ("</script>".data) cs.length cs
    let cs := removeBlocksFuel ("<style".data) ("</style>".data) cs.length cs
    let cs := removeBlocksFuel ("<noscript".data) ("</noscript>".data) cs.length cs
    let cs := removeCommentsFuel cs.length cs
    let cs := removeBlocksFuel ("<header".data) ("</header>".data) cs.length cs
    let cs := removeBlocksFuel ("<footer".data) ("</footer>".data) cs.length cs
    let cs := removeBlocksFuel ("<nav".data) ("</nav>".data) cs.length cs
    let cs := removeBlocksFuel ("<aside".data) ("</aside>".data) cs.length cs
    let cs := stripTagsFuel cs.length cs
    let cs := collapseWsGo false cs
    let cs := replaceAllFuel ("&nbsp;".data) [' '] cs.length cs
    let cs := replaceAllFuel ("&amp;".data) ['&'] cs.length cs
    let cs := replaceAllFuel ("&lt;".data) ['<'] cs.length cs
    let cs := replaceAllFuel ("&gt;".data) ['>'] cs.length cs
    let cs := replaceAllFuel ("&quot;".data) ['"'] cs.length cs
    let cs := replaceAllFuel ("&#39;".data) [Char.ofNat 39] cs.length cs
    String.mk (trimChars cs)

example : cleanHtmlContent "<script>x</script>" = "" := by decide

example : cleanHtmlContent " <p>a&amp;b</p>  c " = "a&b c" := by decide

example : cleanHtmlContent "<SCRIPT src=x>var a;</ScRiPt>ok" = "ok" := by decide

/-- The truncation marker appended when capping (`reader.py` lines 87 and
171). -/
def TRUNCATION_MARKER : String := "\n\n[内容已截断]"

/-- The successful-response handling of `fetch_content_via_http`
(`reader.py` lines 82-89): clean the HTML; content that is empty or at most
100 characters is rejected; longer content is capped at 10000 characters
with the truncation marker appended. -/
def httpExtract (body : String) : Option String :=
  if cleanHtmlContent body ≠ "" ∧ 100 < (cleanHtmlContent body).length then
    some (if 10000 < (cleanHtmlContent body).length then
        (cleanHtmlContent body).take 10000 ++ TRUNCATION_MARKER
      else cleanHtmlContent body)
  else none

/-- The page-content handling of `fetch_content_via_playwright`
(`reader.py` lines 166-173), identical in shape to the HTTP one. -/
def playwrightExtract (html : String) : Option String :=
  if cleanHtmlContent html ≠ "" ∧ 100 < (cleanHtmlContent html).length then
    some (if 10000 < (cleanHtmlContent html).length then
        (cleanHtmlContent html).take 10000 ++ TRUNCATION_MARKER
      else cleanHtmlContent html)
  else none

/-- Outcome of one HTTP attempt: a response with status and body, or a
raised exception. -/
inductive HttpAttempt where
  | response (status : Nat) (body : String)
  | exc (msg : String)
deriving DecidableEq, Repr

/-- The attempt loop of `fetch_content_via_http` (`reader.py` lines 57-101):
a status of 400 or more, an exception, or rejected content moves on to the
next attempt; exhausting `max_retries = 2` attempts returns no content. -/
def httpLoop (attempts : Nat → HttpAttempt) : Nat → Nat → Option String
  | 0, _ => none
  | fuel + 1, attempt =>
      match attempts attempt with
      | .exc _ => httpLoop attempts fuel (attempt + 1)
      | .response status body =>
          if 400 ≤ status then httpLoop attempts fuel (attempt + 1)
          else
            match httpExtract body with
            | some out => some out
            | none => httpLoop attempts fuel (attempt + 1)

/-- `fetch_content_via_http` with its default `max_retries = 2`. -/
def fetchContentViaHttp (attempts : Nat → HttpAttempt) : Option String :=
  httpLoop attempts 2 0

/-- Outcome of one page-render attempt (`reader.py` lines 104-192): a loaded
page with status and HTML, a missing response, or a raised error. -/
inductive PageAttempt where
  | page (status : Nat) (html : String)
  | noResponse
  | exc (msg : String)
deriving DecidableEq, Repr

/-- The attempt loop of `fetch_content_via_playwright` (`max_retries = 2`). -/
def playwrightLoop (attempts : Nat → PageAttempt) : Nat → Nat → Option String
  | 0, _ => none
  | fuel + 1, attempt =>
      match attempts attempt with
      | .exc _ => playwrightLoop attempts fuel (attempt + 1)
      | .noResponse => playwrightLoop attempts fuel (attempt + 1)
      | .page status html =>
          if 400 ≤ status then playwrightLoop attempts fuel (attempt + 1)
          else
            match playwrightExtract html with
            | some out => some out
            | none => playwrightLoop attempts fuel (attempt + 1)

/-- `fetch_content_via_playwright` with its default `max_retries = 2`. -/
def fetchContentViaPlaywright (attempts : Nat → PageAttempt) : Option String :=
  playwrightLoop attempts 2 0

/-- The reader-service response body as used by the code: the `code` field
and `data.markdown` (`reader.py` lines 212-222). -/
structure ReaderResponse where
  code : Int
  markdown : Option String
deriving DecidableEq, Repr

/-- `fetch_content_via_reader_api` (`src/summary/reader.py` lines 195-226):
without a key, on an exception (`resp = none`), on a non-zero `code` or a
falsy `markdown` it returns no content; otherwise it returns the service's
markdown as-is. -/
def fetchContentViaReaderApi (apiKeySet : Bool) (resp : Option ReaderResponse) :
    Option String :=
  if apiKeySet = false then none
  else
    match resp with
    | none => none
    | some r =>
        if r.code ≠ 0 then none
        else
          match r.markdown with
          | some m => if m ≠ "" then some m else none
          | none => none

theorem httpExtract_spec (body out : String) (h : httpExtract body = some out) :
    (out = cleanHtmlContent body ∧ (cleanHtmlContent body).length ≤ 10000) ∨
    (10000 < (cleanHtmlContent body).length ∧
      out = (cleanHtmlContent body).take 10000 ++ TRUNCATION_MARKER) := by
  rw [httpExtract] at h
  by_cases hc : cleanHtmlContent body ≠ "" ∧ 100 < (cleanHtmlContent body).length
  · rw [if_pos hc] at h
    injection h with h
    by_cases hl : 10000 < (cleanHtmlContent body).length
    · right
      rw [if_pos hl] at h
      exact ⟨hl, h.symm⟩
    · left
      rw [if_neg hl] at h
      exact ⟨h.symm, by omega⟩
  · rw [if_neg hc] at h
    cases h

theorem playwrightExtract_spec (html out : String)
    (h : playwrightExtract html = some out) :
    (out = cleanHtmlContent html ∧ (cleanHtmlContent html).length ≤ 10000) ∨
    (10000 < (cleanHtmlContent html).length ∧
      out = (cleanHtmlContent html).take 10000 ++ TRUNCATION_MARKER) := by
  rw [playwrightExtract] at h
  by_cases hc : cleanHtmlContent html ≠ "" ∧ 100 < (cleanHtmlContent html).length
  · rw [if_pos hc] at h
    injection h with h
    by_cases hl : 10000 < (cleanHtmlContent html).length
    · right
      rw [if_pos hl] at h
      exact ⟨hl, h.symm⟩
    · left
      rw [if_neg hl] at h
      exact ⟨h.symm, by omega⟩
  · rw [if_neg hc] at h
    cases h

theorem httpLoop_spec (attempts : Nat → HttpAttempt) :
    ∀ (fuel attempt : Nat) (out : String), httpLoop attempts fuel attempt = some out →
      ∃ i, attempt ≤ i ∧ i < attempt + fuel ∧
        ∃ status body, attempts i = .response status body ∧ status < 400 ∧
          httpExtract body = some out := by
  intro fuel
  induction fuel with
  | zero =>
      intro attempt out h
      rw [httpLoop] at h
      cases h
  | succ n ih =>
      intro attempt out h
      rw [httpLoop] at h
      cases ha : attempts attempt with
      | exc msg =>
          rw [ha] at h
          obtain ⟨i, h1, h2, rest⟩ := ih (attempt + 1) out h
          exact ⟨i, by omega, by omega, rest⟩
      | response status body =>
          rw [ha] at h
          dsimp only at h
          by_cases hs : 400 ≤ status
          · rw [if_pos hs] at h
            obtain ⟨i, h1, h2, rest⟩ := ih (attempt + 1) out h
            exact ⟨i, by omega, by omega, rest⟩
          · rw [if_neg hs] at h
            cases he : httpExtract body with
            | some out' =>
                rw [he] at h
                injection h with h
                subst h
                exact ⟨attempt, by omega, by omega, status, body, ha, by omega, he⟩
            | none =>
                rw [he] at h
                obtain ⟨i, h1, h2, rest⟩ := ih (attempt + 1) out h
                exact ⟨i, by omega, by omega, rest⟩

theorem playwrightLoop_spec (attempts : Nat → PageAttempt) :
    ∀ (fuel attempt : Nat) (out : String),
      playwrightLoop attempts fuel attempt = some out →
      ∃ i, attempt ≤ i ∧ i < attempt + fuel ∧
        ∃ status html, attempts i = .page status html ∧ status < 400 ∧
          playwrightExtract html = some out := by
  intro fuel
  induction fuel with
  | zero =>
      intro attempt out h
      rw [playwrightLoop] at h
      cases h
  | succ n ih =>
      intro attempt out h
      rw [playwrightLoop] at h
      cases ha : attempts attempt with
      | exc msg =>
          rw [ha] at h
          obtain ⟨i, h1, h2, rest⟩ := ih (attempt + 1) out h
          exact ⟨i, by omega, by omega, rest⟩
      | noResponse =>
          rw [ha] at h
          obtain ⟨i, h1, h2, rest⟩ := ih (attempt + 1) out h
          exact ⟨i, by omega, by omega, rest⟩
      | page status html =>
          rw [ha] at h
          dsimp only at h
          by_cases hs : 400 ≤ status
          · rw [if_pos hs] at h
            obtain ⟨i, h1, h2, rest⟩ := ih (attempt + 1) out h
            exact ⟨i, by omega, by omega, rest⟩
          · rw [if_neg hs] at h
            cases he : playwrightExtract html with
            | some out' =>
                rw [he] at h
                injection h with h
                subst h
                exact ⟨attempt, by omega, by omega, status, html, ha, by omega, he⟩
            | none =>
                rw [he] at h
                obtain ⟨i, h1, h2, rest⟩ := ih (attempt + 1) out h
                exact ⟨i, by omega, by omega, rest⟩

theorem fetchContentViaReaderApi_spec (key : Bool) (resp : Option ReaderResponse)
    (out : String) (h : fetchContentViaReaderApi key resp = some out) :
    key = true ∧ ∃ r, resp = some r ∧ r.code = 0 ∧ r.markdown = some out ∧ out ≠ "" := by
  rw [fetchContentViaReaderApi.eq_def] at h
  cases key with
  | false => simp at h
  | true =>
      rw [if_neg (by simp)] at h
      cases resp with
      | none => cases h
      | some r =>
          dsimp only at h
          by_cases hc : r.code ≠ 0
          · rw [if_pos hc] at h
            cases h
          · rw [if_neg hc] at h
            cases hm : r.markdown with
            | none => rw [hm] at h; cases h
            | some m =>
                rw [hm] at h
                dsimp only at h
                by_cases hne : m ≠ ""
                · rw [if_pos hne] at h
                  injection h with h
                  subst h
                  exact ⟨rfl, r, rfl, not_ne_iff.mp hc, hm, hne⟩
                · rw [if_neg hne] at h
                  cases h

/-- A 10001-character markdown payload returned by the reader service. -/
def longMd : String := String.mk (List.replicate 10001 'a')

/-- C6, counterexample: the reader-service strategy returns the service's
markdown verbatim: a 10001-character payload comes back with length above
the 10000-character cap and without the truncation marker, and a payload
containing a raw `<script>` element comes back unnormalized even though
`clean_html_content` would reduce it to the empty string.  So not every
strategy normalizes and caps its output. -/
theorem c6_reader_uncapped_counterexample :
    fetchContentViaReaderApi true (some ⟨0, some longMd⟩) = some longMd ∧
    longMd.length = 10001 ∧
    (∀ pre : String, longMd ≠ pre ++ TRUNCATION_MARKER) ∧
    fetchContentViaReaderApi true (some ⟨0, some "<script>x</script>"⟩) =
      some "<script>x</script>" ∧
    cleanHtmlContent "<script>x</script>" = "" := by
  have hverbatim : fetchContentViaReaderApi true (some ⟨0, some longMd⟩) =
      some longMd := by
    rw [fetchContentViaReaderApi.eq_def]
    rw [if_neg (by decide)]
    dsimp only
    rw [if_neg (by decide : ¬((⟨0, some longMd⟩ : ReaderResponse).code ≠ 0))]
    rw [if_pos (by decide : longMd ≠ "")]
  have hlen : longMd.length = 10001 := by
    show (List.replicate 10001 'a').length = 10001
    rw [List.length_replicate]
  refine ⟨hverbatim, hlen, ?_, by decide, by decide⟩
  intro pre h
  have hd : longMd.data = pre.data ++ TRUNCATION_MARKER.data := by
    rw [h, String.data_append]
  have h1 : longMd.data.getLast? = some 'a' := by
    show (List.replicate 10001 'a').getLast? = some 'a'
    rw [show (10001 : Nat) = 10000 + 1 from rfl, List.replicate_succ',
      List.getLast?_concat]
  have h2 : (pre.data ++ TRUNCATION_MARKER.data).getLast? = some (']' : Char) := by
    have hm : TRUNCATION_MARKER.data = "\n\n[内容已截断".data ++ [(']' : Char)] := by
      decide
    rw [hm, ← List.append_assoc, List.getLast?_concat]
  rw [hd, h2] at h1
  exact absurd h1 (by decide)

/-- C6, amended: the page-render and plain-HTTP strategies return only
content that came from a successful (< 400) attempt and was normalized by
`clean_html_content`, then capped at 10000 characters with the truncation
marker appended exactly when the cap applies; the reader-service strategy
instead returns the service's non-empty markdown verbatim (no
normalization, no cap, no marker), and only when the key is set and the
service reported code 0. -/
theorem c6_strategy_output (attempts : Nat → HttpAttempt)
    (pageAttempts : Nat → PageAttempt) (key : Bool) (resp : Option ReaderResponse) :
    (∀ out, fetchContentViaHttp attempts = some out →
      ∃ i, i < 2 ∧ ∃ status body, attempts i = .response status body ∧
        status < 400 ∧
        ((out = cleanHtmlContent body ∧ (cleanHtmlContent body).length ≤ 10000) ∨
         (10000 < (cleanHtmlContent body).length ∧
           out = (cleanHtmlContent body).take 10000 ++ TRUNCATION_MARKER))) ∧
    (∀ out, fetchContentViaPlaywright pageAttempts = some out →
      ∃ i, i < 2 ∧ ∃ status html, pageAttempts i = .page status html ∧
        status < 400 ∧
        ((out = cleanHtmlContent html ∧ (cleanHtmlContent html).length ≤ 10000) ∨
         (10000 < (cleanHtmlContent html).length ∧
           out = (cleanHtmlContent html).take 10000 ++ TRUNCATION_MARKER))) ∧
    (∀ out, fetchContentViaReaderApi key resp = some out →
      key = true ∧ ∃ r, resp = some r ∧ r.code = 0 ∧ r.markdown = some out ∧
        out ≠ "") := by
  refine ⟨?_, ?_, ?_⟩
  · intro out h
    obtain ⟨i, h1, h2, status, body, ha, hs, he⟩ := httpLoop_spec attempts 2 0 out h
    exact ⟨i, by omega, status, body, ha, hs, httpExtract_spec body out he⟩
  · intro out h
    obtain ⟨i, h1, h2, status, html, ha, hs, he⟩ :=
      playwrightLoop_spec pageAttempts 2 0 out h
    exact ⟨i, by omega, status, html, ha, hs, playwrightExtract_spec html out he⟩
  · intro out h
    exact fetchContentViaReaderApi_spec key resp out h

/-- A page body whose script element is stripped by normalization. -/
def exC6Body : String := "<script>x</script>" ++ String.mk (List.replicate 120 'a')

/-- The normalized content of `exC6Body`: the 120 `a`s. -/
def exC6Clean : String := String.mk (List.replicate 120 'a')

set_option maxRecDepth 40000 in
/-- Witness for C6: a single successful HTTP attempt whose body is cleaned
(script dropped) and returned uncapped, plus a reader response returned
verbatim. -/
theorem c6_strategy_output_witness :
    (fetchContentViaHttp (fun _ => .response 200 exC6Body) = some exC6Clean) ∧
    (∃ i, i < 2 ∧ ∃ status body,
      (fun _ : Nat => HttpAttempt.response 200 exC6Body) i = .response status body ∧
      status < 400 ∧
      ((exC6Clean = cleanHtmlContent body ∧ (cleanHtmlContent body).length ≤ 10000) ∨
       (10000 < (cleanHtmlContent body).length ∧
         exC6Clean = (cleanHtmlContent body).take 10000 ++ TRUNCATION_MARKER))) ∧
    (fetchContentViaReaderApi true (some ⟨0, some "md"⟩) = some "md") ∧
    (true = true ∧ ∃ r, (some (⟨0, some "md"⟩ : ReaderResponse)) = some r ∧
      r.code = 0 ∧ r.markdown = some "md" ∧ "md" ≠ "") := by
  have hhttp : fetchContentViaHttp (fun _ => .response 200 exC6Body) =
      some exC6Clean := by decide
  have hreader : fetchContentViaReaderApi true (some ⟨0, some "md"⟩) =
      some "md" := by decide
  have h := c6_strategy_output (fun _ => .response 200 exC6Body)
    (fun _ => .noResponse) true (some ⟨0, some "md"⟩)
  exact ⟨hhttp, h.1 exC6Clean hhttp, hreader, h.2.2 "md" hreader⟩
